import Mathlib

/-!
Shallow embedding of `src/explainer.py` (fine-grained-sentiment).

The embedded parts are:
* the shared normalization step of both predictor functions
  (`order = np.argsort(np.array(label)); result.append(prob[order])`),
* `fasttext_predictor` (batch strategy, `classifier.predict(texts, 5)`),
* `flair_predictor` (sequential strategy, one `classifier.predict(doc)` per text),
* the `__main__` driver loop (method validation, per-method try/except, text loop).

Scores are modelled as rationals (no arithmetic is ever performed on them: the
adapter only permutes them).  `np.argsort` is modelled as the stable sort of the
index list `[0, ..., n-1]` by label value (ties keep original index order), and
numpy fancy indexing `prob[order]` is modelled as an `Option`-valued lookup that
is `none` when some index is out of range (numpy raises `IndexError` there).
A 2-D score table built by `np.array` (the flair path's `probs = np.array(probs)`
on line 55, and the array handed back by the fasttext library) is numeric only
when all rows have equal length; on a ragged table the rows are plain lists and
the pairing loop's `prob[order]` raises, which `uniformRows` gates below.
Numpy compares unicode labels lexicographically by code point; `lexLt` below is
that comparison, written out executably.
-/

namespace Explainer

abbrev Score := ℚ

/-- Lexicographic (code-point) comparison of character lists: numpy's `<` on
unicode strings, as used by `np.argsort` on the label array. -/
def lexLt : List Char → List Char → Bool
  | _, [] => false
  | [], _ :: _ => true
  | a :: as, b :: bs => if a < b then true else if a = b then lexLt as bs else false

/-- Strict "sorts before" on native labels (numpy unicode string comparison). -/
def strLt (a b : String) : Prop := lexLt a.data b.data = true

instance : DecidableRel strLt := fun a b => by
  unfold strLt; infer_instance

/-- The comparison used by `np.argsort(np.array(label))` on indices `i j` of the
label list: label at `i` sorts before label at `j`, ties broken by position
(a stable index sort). -/
def idxLe (l : List String) (i j : ℕ) : Prop :=
  strLt (l.getD i "") (l.getD j "") ∨ (l.getD i "" = l.getD j "" ∧ i ≤ j)

instance (l : List String) : DecidableRel (idxLe l) := fun i j => by
  unfold idxLe; infer_instance

/-- Model of `np.argsort(np.array(label))`: the permutation of `[0, ..., n-1]` that sorts
the labels ascending (stable on ties). -/
def argsort (label : List String) : List ℕ :=
  (List.range label.length).insertionSort (idxLe label)

/-- Numpy fancy indexing `prob[order]`: pick entries of `prob` at the given
indices; `none` models the `IndexError` raised on an out-of-range index. -/
def npIndex (prob : List Score) : List ℕ → Option (List Score)
  | [] => some []
  | i :: is =>
    match prob[i]?, npIndex prob is with
    | some x, some xs => some (x :: xs)
    | _, _ => none

/-- One iteration of the shared normalization loop of both predictors:
`order = np.argsort(np.array(label)); prob[order]`. -/
def adaptOne (label : List String) (prob : List Score) : Option (List Score) :=
  npIndex prob (argsort label)

/-- The shared loop `for label, prob, text in zip(labels, probs, texts): ...`
of both predictors, accumulating `result` (the text component is unused by the
loop body; it is kept to model the truncating `zip`). -/
def adaptLoop : List ((List String × List Score) × String) → Option (List (List Score))
  | [] => some []
  | x :: xs =>
    match adaptOne x.1.1 x.1.2, adaptLoop xs with
    | some v, some vs => some (v :: vs)
    | _, _ => none

/-- Executable check that all rows of a score table have the same length
(adjacent rows compared pairwise). -/
def uniformRowsB : List (List Score) → Bool
  | [] => true
  | [_] => true
  | a :: b :: rest => a.length == b.length && uniformRowsB (b :: rest)

/-- Uniformity of a 2-D score table: `np.array` on a list of rows builds a
numeric 2-D array exactly when all rows have the same length.  On a ragged
table the rows stay Python lists (older numpy builds an object array; numpy
1.24+ refuses the conversion outright), so any later fancy indexing
`prob[order]` of a row raises. -/
def uniformRows (probs : List (List Score)) : Prop := uniformRowsB probs = true

instance (probs : List (List Score)) : Decidable (uniformRows probs) :=
  inferInstanceAs (Decidable (uniformRowsB probs = true))

/-- The batch classifier capability: `classifier.predict(texts, k)` returning
parallel per-text label and score lists. -/
structure BatchClassifier where
  predict : List String → ℕ → List (List String) × List (List Score)

/-- Embedding of `fasttext_predictor(classifier, texts)` from `src/explainer.py`.
The probability table returned by `classifier.predict` is a numpy array: when
the modelled classifier output is ragged it stands for an object array whose
rows are plain lists, and then every executed loop iteration raises at
`prob[order]` — the call only returns normally if the pairing loop runs zero
times (then `result` stays `[]`). -/
def fasttext_predictor (classifier : BatchClassifier) (texts : List String) :
    Option (List (List Score)) :=
  let lp := classifier.predict texts 5
  let zs := (lp.1.zip lp.2).zip texts
  if zs = [] ∨ uniformRows lp.2 then adaptLoop zs else none

/-- One entry of `doc.labels` in the flair sequential strategy: `.value` is the
native label identity, `.score` its probability. -/
structure FlairLabel where
  value : String
  score : Score
deriving DecidableEq

/-- Embedding of `flair_predictor(classifier, texts)` from `src/explainer.py`: one
`classifier.predict(doc)` call per text, collecting `labels` and `probs`, then
`probs = np.array(probs)` (line 55) and the same normalization loop as the
batch strategy.  When the per-text label counts differ the conversion produces
a ragged table and the call raises (numpy 1.24+ fails the conversion itself;
older numpy builds an object array of lists and the loop's `prob[order]`
raises on its first iteration — raggedness requires at least two rows, so the
loop is never empty there). -/
def flair_predictor (classifier : String → List FlairLabel) (texts : List String) :
    Option (List (List Score)) :=
  let docs := texts.map classifier
  let labels := docs.map fun d => d.map FlairLabel.value
  let probs := docs.map fun d => d.map FlairLabel.score
  if uniformRows probs then adaptLoop ((labels.zip probs).zip texts) else none

/-- The canonical adapted vector for a parallel (label, score) pair: scores
re-ordered by the argsort permutation of the labels. -/
def adapted (label : List String) (prob : List Score) : List Score :=
  (argsort label).map fun i => prob.getD i 0

/-- The (label, score) pairs re-ordered by the argsort permutation of the labels. -/
def sortedPairs (label : List String) (prob : List Score) : List (String × Score) :=
  (argsort label).map fun i => (label.getD i "", prob.getD i 0)

/-- Strict "sorts before" on (label, score) pairs, comparing labels only. -/
def pairLt (x y : String × Score) : Prop := strLt x.1 y.1

/-! The `__main__` driver loop of `src/explainer.py`, lines 101-133.

`main(method, path, text)` loads the classifier and runs the LIME explainer for
one text; its outcome (success, or an exception raised during loading or during
the explain call) is abstracted by a `MainBehavior` oracle.  The driver trace
records the externally visible steps: model loads, produced explanations, saved
HTML reports, printed exception messages, and the `parser.error` exit. -/

/-- The `METHODS` registry dict of `src/explainer.py`. -/
def METHODS : List (String × String) :=
  [("fasttext", "models/fasttext/sst.bin"), ("flair", "models/flair/best-model-elmo.pt")]

/-- Embedding of `method_list = [method for method in METHODS.keys()]`. -/
def method_list : List String := METHODS.map Prod.fst

/-- The message printed by `parser.error` on an unknown method. -/
def errMsg : String :=
  "Please choose from the below existing methods! \n" ++ ", ".intercalate method_list

/-- Externally visible steps of the driver loop. -/
inductive Event where
  | parserError (msg : String)
  | load (method : String)
  | explain (method : String) (textIdx : ℕ)
  | save (method : String) (textIdx : ℕ)
  | printErr (msg : String)
deriving DecidableEq, Repr

/-- Outcomes of the work done inside `main(method, path, text)`: whether loading
the method's classifier raises, and whether the explain call for a given text
index raises (exceptions are represented by their message). -/
structure MainBehavior where
  load : String → Except String Unit
  explain : String → ℕ → Except String Unit

/-- One `main(method, path_to_model, text)` call: load the classifier, then
explain one text; returns the emitted events and the raised exception, if any. -/
def runMain (b : MainBehavior) (m : String) (i : ℕ) : List Event × Option String :=
  match b.load m with
  | .error e => ([], some e)
  | .ok _ =>
    match b.explain m i with
    | .error e => ([.load m], some e)
    | .ok _ => ([.load m, .explain m i], none)

/-- The `for i, text in enumerate(samples)` loop inside the per-method `try`
block: an exception aborts the remaining texts and is printed by the
`except` clause; on success the result is saved to HTML. -/
def textLoop (b : MainBehavior) (m : String) : List ℕ → List Event
  | [] => []
  | i :: rest =>
    match runMain b m i with
    | (evs, some e) => evs ++ [.printErr e]
    | (evs, none) => evs ++ [.save m i] ++ textLoop b m rest

/-- The `for method in args.method` loop: an unknown method hits
`parser.error` (which prints the valid set and exits the process with status 2);
a known method runs its own try/except text loop, then the loop continues.
Returns the full event trace and the process exit status. -/
def driver (b : MainBehavior) (samples : List String) : List String → List Event × ℕ
  | [] => ([], 0)
  | m :: rest =>
    if method_list.contains m then
      let t := textLoop b m (List.range samples.length)
      let r := driver b samples rest
      (t ++ r.1, r.2)
    else
      ([.parserError errMsg], 2)

/-- A behavior oracle on which no load and no explain call raises. -/
def okB : MainBehavior := ⟨fun _ => .ok (), fun _ _ => .ok ()⟩

/-- A batch classifier that returns only 3 native labels per text even though
5 were requested (a top-k truncating classifier). -/
def shortBatch : BatchClassifier :=
  ⟨fun texts _ => (texts.map fun _ => ["1", "2", "3"], texts.map fun _ => [1, 0, 0])⟩

/-- A sequential (flair-style) classifier whose documents carry only 3 class
labels instead of the declared 5. -/
def truncFlair : String → List FlairLabel :=
  fun _ => [⟨"1", 1⟩, ⟨"2", 0⟩, ⟨"3", 0⟩]

/-- A sequential classifier used to witness strategy equivalence. -/
def flairW : String → List FlairLabel :=
  fun _ => [⟨"3", 1⟩, ⟨"1", 0⟩, ⟨"5", 0⟩, ⟨"2", 0⟩, ⟨"4", 0⟩]

/-- The batch classifier with the same underlying per-text outputs as `flairW`. -/
def batchW : BatchClassifier :=
  ⟨fun texts _ =>
    (texts.map fun t => (flairW t).map FlairLabel.value,
     texts.map fun t => (flairW t).map FlairLabel.score)⟩

/-- A batch classifier returning 3 per-text predictions regardless of how many
texts were passed in. -/
def mismatchBatch : BatchClassifier :=
  ⟨fun _ _ => ([["1"], ["2"], ["3"]], [[1], [1], [1]])⟩

/-- A sequential classifier whose documents carry differing numbers of labels
across texts (a ragged score table after `np.array(probs)`). -/
def raggedFlair : String → List FlairLabel :=
  fun t => if t = "b" then [⟨"1", 1⟩, ⟨"2", 0⟩] else [⟨"1", 1⟩]

/-- A batch classifier returning 2 per-text predictions with differing label
counts (a ragged probability table). -/
def raggedBatch : BatchClassifier :=
  ⟨fun _ _ => ([["1"], ["1", "2"]], [[1], [1, 0]])⟩

/-! Order facts about the embedded comparisons. -/

theorem lexLt_irrefl : ∀ as : List Char, lexLt as as = false
  | [] => rfl
  | a :: as => by simp [lexLt, lexLt_irrefl as]

theorem lexLt_trans : ∀ as bs cs : List Char,
    lexLt as bs = true → lexLt bs cs = true → lexLt as cs = true
  | _, bs, [], _, h2 => by simp [lexLt] at h2
  | [], _ :: _, _ :: _, _, _ => rfl
  | _ :: _, [], _ :: _, h1, _ => by simp [lexLt] at h1
  | a :: as, b :: bs, c :: cs, h1, h2 => by
    simp only [lexLt] at h1 h2 ⊢
    by_cases hab : a < b
    · by_cases hbc : b < c
      · simp [lt_trans hab hbc]
      · by_cases hbce : b = c
        · simp [hbce ▸ hab]
        · simp [hbc, hbce] at h2
    · by_cases habe : a = b
      · subst habe
        by_cases hbc : a < c
        · simp [hbc]
        · by_cases hbce : a = c
          · subst hbce
            simp only [lt_irrefl, if_false, if_pos rfl] at h1 h2 ⊢
            exact lexLt_trans as bs cs h1 h2
          · simp [hbc, hbce] at h2
      · simp [hab, habe] at h1

theorem lexLt_antisymm : ∀ as bs : List Char,
    lexLt as bs = false → lexLt bs as = false → as = bs
  | [], [], _, _ => rfl
  | [], _ :: _, h1, _ => by simp [lexLt] at h1
  | _ :: _, [], _, h2 => by simp [lexLt] at h2
  | a :: as, b :: bs, h1, h2 => by
    simp only [lexLt] at h1 h2
    rcases lt_trichotomy a b with h | h | h
    · simp [h] at h1
    · subst h
      simp only [lt_irrefl, if_false, if_pos rfl] at h1 h2
      rw [lexLt_antisymm as bs h1 h2]
    · simp [h] at h2

theorem strLt_asymm {a b : String} (h : strLt a b) : ¬ strLt b a := by
  intro h'
  have := lexLt_trans _ _ _ h h'
  rw [lexLt_irrefl] at this
  cases this

theorem strLt_trans {a b c : String} (h1 : strLt a b) (h2 : strLt b c) : strLt a c :=
  lexLt_trans _ _ _ h1 h2

theorem strLt_antisymm {a b : String} (h1 : ¬ strLt a b) (h2 : ¬ strLt b a) : a = b := by
  apply String.ext
  exact lexLt_antisymm _ _ (Bool.not_eq_true _ ▸ h1) (Bool.not_eq_true _ ▸ h2)

instance (l : List String) : IsTotal ℕ (idxLe l) := by
  constructor
  intro i j
  by_cases hij : strLt (l.getD i "") (l.getD j "")
  · exact Or.inl (Or.inl hij)
  · by_cases hji : strLt (l.getD j "") (l.getD i "")
    · exact Or.inr (Or.inl hji)
    · have he := strLt_antisymm hij hji
      rcases Nat.le_total i j with h | h
      · exact Or.inl (Or.inr ⟨he, h⟩)
      · exact Or.inr (Or.inr ⟨he.symm, h⟩)

instance (l : List String) : IsTrans ℕ (idxLe l) := by
  constructor
  intro i j k hij hjk
  rcases hij with h | ⟨he, hle⟩
  · rcases hjk with h' | ⟨he', _⟩
    · exact Or.inl (strLt_trans h h')
    · exact Or.inl (he' ▸ h)
  · rcases hjk with h' | ⟨he', hle'⟩
    · exact Or.inl (he ▸ h')
    · exact Or.inr ⟨he.trans he', hle.trans hle'⟩

instance : IsAntisymm (String × Score) pairLt :=
  ⟨fun _ _ h h' => absurd h' (strLt_asymm h)⟩

/-! Correctness facts about the embedded argsort-based normalization. -/

theorem argsort_perm_range (label : List String) :
    (argsort label).Perm (List.range label.length) :=
  List.perm_insertionSort _ _

theorem argsort_length (label : List String) : (argsort label).length = label.length := by
  rw [(argsort_perm_range label).length_eq, List.length_range]

theorem mem_argsort {label : List String} {i : ℕ} (h : i ∈ argsort label) : i < label.length := by
  have := (argsort_perm_range label).mem_iff.mp h
  exact List.mem_range.mp this

theorem argsort_nodup (label : List String) : (argsort label).Nodup :=
  ((argsort_perm_range label).nodup_iff).mpr (List.nodup_range _)

theorem argsort_sorted (label : List String) : (argsort label).Pairwise (idxLe label) :=
  List.sorted_insertionSort (idxLe label) _

theorem npIndex_eq_map {prob : List Score} :
    ∀ {is : List ℕ}, (∀ i ∈ is, i < prob.length) →
      npIndex prob is = some (is.map fun i => prob.getD i 0)
  | [], _ => rfl
  | i :: is, h => by
    have hi : i < prob.length := h i (List.mem_cons_self i is)
    have his : ∀ j ∈ is, j < prob.length := fun j hj => h j (List.mem_cons_of_mem i hj)
    simp only [npIndex, npIndex_eq_map his, List.getElem?_eq_getElem hi, List.map_cons,
      List.getD_eq_getElem prob 0 hi]

theorem adaptOne_eq_adapted {label : List String} {prob : List Score}
    (h : label.length ≤ prob.length) : adaptOne label prob = some (adapted label prob) := by
  unfold adaptOne adapted
  exact npIndex_eq_map fun i hi => lt_of_lt_of_le (mem_argsort hi) h

theorem adapted_length (label : List String) (prob : List Score) :
    (adapted label prob).length = label.length := by
  simp [adapted, argsort_length]

theorem range_map_getD_pair {label : List String} {prob : List Score}
    (h : prob.length = label.length) :
    ((List.range label.length).map fun i => (label.getD i "", prob.getD i 0)) =
      label.zip prob := by
  apply List.ext_getElem
  · simp [List.length_zip, h]
  · intro n h₁ h₂
    have hn : n < label.length := by simpa using h₁
    have hp : n < prob.length := h ▸ hn
    simp [List.getElem_zip, List.getElem?_eq_getElem hn, List.getElem?_eq_getElem hp]

theorem range_map_getD (prob : List Score) :
    ((List.range prob.length).map fun i => prob.getD i 0) = prob := by
  apply List.ext_getElem
  · simp
  · intro n h₁ h₂
    simp [List.getElem?_eq_getElem h₂]

theorem sortedPairs_perm {label : List String} {prob : List Score}
    (h : prob.length = label.length) :
    (sortedPairs label prob).Perm (label.zip prob) := by
  unfold sortedPairs
  have h1 : ((argsort label).map fun i => (label.getD i "", prob.getD i 0)).Perm
      ((List.range label.length).map fun i => (label.getD i "", prob.getD i 0)) :=
    (argsort_perm_range label).map _
  rw [range_map_getD_pair h] at h1
  exact h1

theorem sortedPairs_pairwise {label : List String} (prob : List Score)
    (hnd : label.Nodup) : (sortedPairs label prob).Pairwise pairLt := by
  unfold sortedPairs
  rw [List.pairwise_map]
  have hs := (argsort_sorted label).and (argsort_nodup label)
  refine hs.imp_of_mem ?_
  intro i j hi hj hij
  have hi' : i < label.length := mem_argsort hi
  have hj' : j < label.length := mem_argsort hj
  rcases hij with ⟨h | ⟨he, _⟩, hne⟩
  · exact h
  · exfalso
    rw [List.getD_eq_getElem label "" hi', List.getD_eq_getElem label "" hj'] at he
    exact hne ((List.Nodup.getElem_inj_iff hnd).mp he)

theorem adapted_eq_map_snd (label : List String) (prob : List Score) :
    adapted label prob = (sortedPairs label prob).map Prod.snd := by
  unfold adapted sortedPairs
  rw [List.map_map]
  rfl

theorem sortedPairs_map_fst (label : List String) (prob : List Score) :
    (sortedPairs label prob).map Prod.fst = (argsort label).map fun i => label.getD i "" := by
  unfold sortedPairs
  rw [List.map_map]
  rfl

theorem adaptLoop_eq_map :
    ∀ {xs : List ((List String × List Score) × String)},
      (∀ x ∈ xs, x.1.1.length ≤ x.1.2.length) →
      adaptLoop xs = some (xs.map fun x => adapted x.1.1 x.1.2)
  | [], _ => rfl
  | x :: xs, h => by
    have hx := h x (List.mem_cons_self x xs)
    have hxs : ∀ y ∈ xs, y.1.1.length ≤ y.1.2.length :=
      fun y hy => h y (List.mem_cons_of_mem x hy)
    simp only [adaptLoop, adaptOne_eq_adapted hx, adaptLoop_eq_map hxs, List.map_cons]

theorem mem_zip3 {ls : List (List String)} {ps : List (List Score)} {ts : List String}
    {x : (List String × List Score) × String} (hx : x ∈ (ls.zip ps).zip ts) :
    ∃ i, ∃ (h1 : i < ls.length) (h2 : i < ps.length) (h3 : i < ts.length),
      x = ((ls[i], ps[i]), ts[i]) := by
  rcases List.mem_iff_getElem.mp hx with ⟨i, hi, rfl⟩
  have hi' := hi
  simp only [List.length_zip, lt_min_iff] at hi'
  exact ⟨i, hi'.1.1, hi'.1.2, hi'.2, by simp [List.getElem_zip]⟩

theorem adaptLoop_zip3 {ls : List (List String)} {ps : List (List Score)} {ts : List String}
    (hpar : ∀ i (h1 : i < ls.length) (h2 : i < ps.length), ls[i].length ≤ ps[i].length) :
    adaptLoop ((ls.zip ps).zip ts) =
      some (((ls.zip ps).zip ts).map fun x => adapted x.1.1 x.1.2) := by
  apply adaptLoop_eq_map
  intro x hx
  rcases mem_zip3 hx with ⟨i, h1, h2, _, rfl⟩
  exact hpar i h1 h2

theorem adaptLoop_length :
    ∀ {xs : List ((List String × List Score) × String)} {vs : List (List Score)},
      adaptLoop xs = some vs → vs.length = xs.length := by
  intro xs
  induction xs with
  | nil =>
    intro vs h
    simp only [adaptLoop, Option.some.injEq] at h
    subst h
    rfl
  | cons x xs ih =>
    intro vs h
    simp only [adaptLoop] at h
    rcases h1 : adaptOne x.1.1 x.1.2 with _ | v
    · rw [h1] at h
      cases h
    · rcases h2 : adaptLoop xs with _ | vs'
      · rw [h1, h2] at h
        cases h
      · rw [h1, h2] at h
        simp only [Option.some.injEq] at h
        subst h
        simp [ih h2]

theorem fasttext_predictor_uniform_eq (cf : BatchClassifier) (texts : List String)
    (huni : uniformRows (cf.predict texts 5).2) :
    fasttext_predictor cf texts =
      adaptLoop (((cf.predict texts 5).1.zip (cf.predict texts 5).2).zip texts) := by
  simp only [fasttext_predictor]
  rw [if_pos (Or.inr huni)]

theorem flair_predictor_uniform_eq (sf : String → List FlairLabel) (texts : List String)
    (huni : uniformRows (texts.map fun t => (sf t).map FlairLabel.score)) :
    flair_predictor sf texts =
      adaptLoop (((texts.map fun t => (sf t).map FlairLabel.value).zip
        (texts.map fun t => (sf t).map FlairLabel.score)).zip texts) := by
  simp only [flair_predictor, List.map_map, Function.comp_def]
  rw [if_pos huni]

theorem flair_predictor_ragged_eq (sf : String → List FlairLabel) (texts : List String)
    (huni : ¬ uniformRows (texts.map fun t => (sf t).map FlairLabel.score)) :
    flair_predictor sf texts = none := by
  simp only [flair_predictor, List.map_map, Function.comp_def]
  rw [if_neg huni]

theorem adaptOne_35124 (a b c d e : Score) :
    adaptOne ["3", "1", "5", "2", "4"] [a, b, c, d, e] = some [b, d, a, e, c] := by
  have h : argsort ["3", "1", "5", "2", "4"] = [1, 3, 0, 4, 2] := by decide
  unfold adaptOne
  rw [h]
  rfl

theorem adaptOne_dup (x y : Score) :
    adaptOne ["1", "1"] [x, y] = some [x, y] := by
  have h : argsort ["1", "1"] = [0, 1] := by decide
  unfold adaptOne
  rw [h]
  rfl

/-- C1: for a RawPrediction with distinct native labels, the adapter computes
the permutation sorting the native label sequence ascending and applies it to
the paired score sequence: the output vector is the score column of the
(label, score) pairs re-ordered so that the labels are strictly ascending; in
particular native labels ["3","1","5","2","4"] with scores
[0.1,0.5,0.05,0.2,0.15] adapt to [0.5,0.2,0.1,0.15,0.05]. -/
theorem c1_adapter_sorts_scores_into_canonical_order
    (label : List String) (prob : List Score)
    (hnd : label.Nodup) (hlen : prob.length = label.length) :
    (∃ (v : List Score) (ls : List String), adaptOne label prob = some v ∧ ls.Pairwise strLt ∧
      (ls.zip v).Perm (label.zip prob)) ∧
    adaptOne ["3", "1", "5", "2", "4"] [0.1, 0.5, 0.05, 0.2, 0.15] =
      some [0.5, 0.2, 0.1, 0.15, 0.05] := by
  constructor
  · refine ⟨adapted label prob, (sortedPairs label prob).map Prod.fst,
      adaptOne_eq_adapted (le_of_eq hlen.symm), ?_, ?_⟩
    · rw [List.pairwise_map]
      exact sortedPairs_pairwise prob hnd
    · rw [adapted_eq_map_snd]
      have hz : ((sortedPairs label prob).map Prod.fst).zip
          ((sortedPairs label prob).map Prod.snd) = sortedPairs label prob := by
        rw [List.zip_map']
        simp
      rw [hz]
      exact sortedPairs_perm hlen
  · exact adaptOne_35124 0.1 0.5 0.05 0.2 0.15

/-- C1 witness: the theorem applied at the concrete RawPrediction of the claim. -/
theorem c1_witness :
    (∃ (v : List Score) (ls : List String),
        adaptOne ["3", "1", "5", "2", "4"] [(0.1 : Score), 0.5, 0.05, 0.2, 0.15] = some v ∧
        ls.Pairwise strLt ∧
        (ls.zip v).Perm ((["3", "1", "5", "2", "4"] : List String).zip
          [(0.1 : Score), 0.5, 0.05, 0.2, 0.15])) ∧
    adaptOne ["3", "1", "5", "2", "4"] [0.1, 0.5, 0.05, 0.2, 0.15] =
      some [0.5, 0.2, 0.1, 0.15, 0.05] :=
  c1_adapter_sorts_scores_into_canonical_order ["3", "1", "5", "2", "4"]
    [0.1, 0.5, 0.05, 0.2, 0.15] (by decide) (by decide)
/-- C2 counterexample: with duplicated native labels, swapping the two
(label, score) pairs changes the adapter output, so the output is not invariant
under all permutations of the pairs. -/
theorem c2_counterexample :
    ((["1", "1"] : List String).zip [(0.7 : Score), 0.3]).Perm
      ((["1", "1"] : List String).zip [(0.3 : Score), 0.7]) ∧
    adaptOne ["1", "1"] [(0.7 : Score), 0.3] ≠ adaptOne ["1", "1"] [(0.3 : Score), 0.7] := by
  constructor
  · show [(("1" : String), (0.7 : Score)), ("1", 0.3)].Perm [("1", (0.3 : Score)), ("1", 0.7)]
    exact List.Perm.swap _ _ _
  · rw [adaptOne_dup, adaptOne_dup]
    intro h
    have h2 : (0.7 : Score) = 0.3 := List.head_eq_of_cons_eq (Option.some.inj h)
    norm_num at h2

/-- C2 amended: for a RawPrediction whose native labels are pairwise distinct,
the adapter output is invariant under re-shuffling the paired (label, score)
sequences: any permutation of the pairs adapts to the same canonical vector. -/
theorem c2_adapter_invariant_under_label_reshuffle
    (label : List String) (prob : List Score) (label' : List String) (prob' : List Score)
    (hnd : label.Nodup) (hlen : prob.length = label.length)
    (hlen' : prob'.length = label'.length)
    (hperm : (label'.zip prob').Perm (label.zip prob)) :
    adaptOne label' prob' = adaptOne label prob := by
  have hnd' : label'.Nodup := by
    have hfst := hperm.map Prod.fst
    rw [List.map_fst_zip _ _ (le_of_eq hlen'.symm),
      List.map_fst_zip _ _ (le_of_eq hlen.symm)] at hfst
    exact hfst.nodup_iff.mpr hnd
  have hsp : sortedPairs label' prob' = sortedPairs label prob :=
    List.eq_of_perm_of_sorted
      (((sortedPairs_perm hlen').trans hperm).trans (sortedPairs_perm hlen).symm)
      (sortedPairs_pairwise prob' hnd') (sortedPairs_pairwise prob hnd)
  rw [adaptOne_eq_adapted (le_of_eq hlen.symm), adaptOne_eq_adapted (le_of_eq hlen'.symm),
    adapted_eq_map_snd, adapted_eq_map_snd, hsp]

/-- C2 witness: reversing the two (label, score) pairs of a distinct-label
RawPrediction leaves the adapted vector unchanged. -/
theorem c2_witness :
    adaptOne ["1", "2"] [(0.7 : Score), 0.3] = adaptOne ["2", "1"] [(0.3 : Score), 0.7] :=
  c2_adapter_invariant_under_label_reshuffle ["2", "1"] [(0.3 : Score), 0.7]
    ["1", "2"] [(0.7 : Score), 0.3] (by decide) (by decide) (by decide)
    (List.Perm.swap _ _ _)

/-- C8: if the native label sequence is already in canonical ascending order,
the argsort permutation is the identity and the adapted output equals the input
score sequence unchanged. -/
theorem c8_sorted_labels_give_identity_permutation
    (label : List String) (prob : List Score)
    (hsorted : label.Pairwise fun a b => strLt a b ∨ a = b)
    (hlen : prob.length = label.length) :
    argsort label = List.range label.length ∧ adaptOne label prob = some prob := by
  have hid : argsort label = List.range label.length := by
    unfold argsort
    apply List.Sorted.insertionSort_eq
    rw [List.Sorted, List.pairwise_iff_getElem]
    intro i j hi hj hij
    have hi' : i < label.length := by simpa using hi
    have hj' : j < label.length := by simpa using hj
    have hrel := (List.pairwise_iff_getElem.mp hsorted) i j hi' hj' (by simpa using hij)
    simp only [List.getElem_range]
    unfold idxLe
    rw [List.getD_eq_getElem label "" hi', List.getD_eq_getElem label "" hj']
    rcases hrel with h | h
    · exact Or.inl h
    · exact Or.inr ⟨h, le_of_lt (by simpa using hij)⟩
  refine ⟨hid, ?_⟩
  unfold adaptOne
  rw [hid, ← hlen, npIndex_eq_map (by simp), range_map_getD]

/-- C8 witness: the theorem applied to a RawPrediction already in canonical
ascending label order. -/
theorem c8_witness :
    argsort ["1", "2", "3", "4", "5"] = List.range 5 ∧
    adaptOne ["1", "2", "3", "4", "5"] [(0.3 : Score), 0.1, 0.2, 0.15, 0.25] =
      some [(0.3 : Score), 0.1, 0.2, 0.15, 0.25] :=
  c8_sorted_labels_give_identity_permutation ["1", "2", "3", "4", "5"]
    [(0.3 : Score), 0.1, 0.2, 0.15, 0.25] (by decide) (by decide)
theorem adaptOne_123 (a b c : Score) :
    adaptOne ["1", "2", "3"] [a, b, c] = some [a, b, c] := by
  have h : argsort ["1", "2", "3"] = [0, 1, 2] := by decide
  unfold adaptOne
  rw [h]
  rfl

/-- C3 counterexample: a classifier output with only 3 native labels is adapted
by the batch strategy to a vector of length 3, not the declared class count 5. -/
theorem c3_counterexample :
    fasttext_predictor shortBatch ["some text"] = some [[(1 : Score), 0, 0]] ∧
    [(1 : Score), 0, 0].length ≠ 5 := by
  constructor
  · rw [fasttext_predictor_uniform_eq shortBatch ["some text"] (by decide)]
    show adaptLoop [((["1", "2", "3"], [(1 : Score), 0, 0]), "some text")] =
      some [[(1 : Score), 0, 0]]
    simp only [adaptLoop, adaptOne_123]
  · decide

/-- C3 amended: for every classifier output processed by the shared
normalization loop of either predictor strategy (each per-text label list no
longer than its score list), the loop succeeds and each resulting vector has
length equal to the number of native labels of that text's RawPrediction — so
it has the declared class count 5 exactly when the classifier returned 5
native labels. -/
theorem c3_vector_length_equals_native_label_count
    (xs : List ((List String × List Score) × String))
    (hpar : ∀ x ∈ xs, x.1.1.length ≤ x.1.2.length) :
    ∃ vs, adaptLoop xs = some vs ∧ vs.length = xs.length ∧
      ∀ i (h1 : i < xs.length) (h2 : i < vs.length), vs[i].length = xs[i].1.1.length := by
  refine ⟨xs.map fun x => adapted x.1.1 x.1.2, adaptLoop_eq_map hpar, by simp, ?_⟩
  intro i h1 h2
  simp [adapted_length]

/-- C3 amended witness: one 3-label RawPrediction adapts to one vector of
length 3. -/
theorem c3_witness :
    ∃ vs, adaptLoop [((["1", "2", "3"], [(1 : Score), 0, 0]), "t")] = some vs ∧
      vs.length = [((["1", "2", "3"], [(1 : Score), 0, 0]), "t")].length ∧
      ∀ i (h1 : i < [((["1", "2", "3"], [(1 : Score), 0, 0]), "t")].length)
        (h2 : i < vs.length),
        vs[i].length = [((["1", "2", "3"], [(1 : Score), 0, 0]), "t")][i].1.1.length :=
  c3_vector_length_equals_native_label_count _ (by decide)

/-- C4: the sequential strategy, on a document carrying only 3 of the 5
declared class labels, silently returns the short 3-entry vector: no
`IncompletePredictionError` exists in the code and nothing fails. -/
theorem c4_sequential_truncation_is_silent :
    flair_predictor truncFlair ["a text"] = some [[(1 : Score), 0, 0]] ∧
    [(1 : Score), 0, 0].length ≠ 5 := by
  constructor
  · rw [flair_predictor_uniform_eq truncFlair ["a text"] (by decide)]
    show adaptLoop [((["1", "2", "3"], [(1 : Score), 0, 0]), "a text")] =
      some [[(1 : Score), 0, 0]]
    simp only [adaptLoop, adaptOne_123]
  · decide
/-- C5 counterexample: with `--method fasttext doesnotexist`, the unknown value
is only hit after the first method has fully run, so a model is loaded and
explanations are produced before the process reports the valid set and exits. -/
theorem c5_counterexample :
    method_list.contains "doesnotexist" = false ∧
    Event.load "fasttext" ∈ (driver okB ["t1", "t2"] ["fasttext", "doesnotexist"]).1 ∧
    Event.explain "fasttext" 0 ∈ (driver okB ["t1", "t2"] ["fasttext", "doesnotexist"]).1 := by
  decide

/-- C5 amended: when the `--method` list is a block of registered methods
followed by an unknown value, the driver fully processes the leading registered
methods, then reports the valid method set (`errMsg` lists it) and exits with
status 2 (nonzero); the unknown value and everything after it is never loaded
or explained. -/
theorem c5_unknown_method_exits_after_earlier_methods_ran
    (b : MainBehavior) (samples ms₁ ms₂ : List String) (m' : String)
    (h₁ : ∀ m ∈ ms₁, method_list.contains m = true)
    (h₂ : method_list.contains m' = false) :
    driver b samples (ms₁ ++ m' :: ms₂) =
      ((driver b samples ms₁).1 ++ [Event.parserError errMsg], 2) := by
  induction ms₁ with
  | nil =>
    have h₂' : m' ∉ method_list := by simpa using h₂
    simp [driver, h₂']
  | cons m ms ih =>
    have hm : m ∈ method_list := by simpa using h₁ m (List.mem_cons_self _ _)
    have h' : ∀ x ∈ ms, method_list.contains x = true :=
      fun x hx => h₁ x (List.mem_cons_of_mem _ hx)
    simp [driver, hm, ih h', List.append_assoc]

/-- C5 witness: the amended theorem at `--method fasttext doesnotexist`. -/
theorem c5_witness :
    driver okB ["t"] (["fasttext"] ++ "doesnotexist" :: []) =
      ((driver okB ["t"] ["fasttext"]).1 ++ [Event.parserError errMsg], 2) :=
  c5_unknown_method_exits_after_earlier_methods_ran okB ["t"] ["fasttext"] []
    "doesnotexist" (by decide) (by decide)

/-- C6: each registered method's text loop runs inside its own failure
boundary: (i) the driver trace for `m :: rest` is `m`'s own text-loop trace
followed by the untouched run of the remaining methods, whatever failures `m`
produces; (ii) a load failure prints the error and skips the method entirely
(no load, no explanation); (iii) an explain failure at one text produces the
successful prefix, the failing load/print, and aborts all remaining texts. -/
theorem c6_method_failures_are_isolated
    (b : MainBehavior) (samples rest : List String) (m : String)
    (hm : method_list.contains m = true) :
    (driver b samples (m :: rest) =
      (textLoop b m (List.range samples.length) ++ (driver b samples rest).1,
        (driver b samples rest).2)) ∧
    (∀ e i is, b.load m = .error e → textLoop b m (i :: is) = [Event.printErr e]) ∧
    (∀ e i is₁ is₂, b.load m = .ok () → (∀ j ∈ is₁, b.explain m j = .ok ()) →
      b.explain m i = .error e →
      textLoop b m (is₁ ++ i :: is₂) =
        (is₁.map fun j => [Event.load m, Event.explain m j, Event.save m j]).flatten ++
          [Event.load m, Event.printErr e]) := by
  have hm' : m ∈ method_list := by simpa using hm
  refine ⟨by simp [driver, hm'], ?_, ?_⟩
  · intro e i is h
    simp [textLoop, runMain, h]
  · intro e i is₁ is₂ hl hok he
    induction is₁ with
    | nil => simp [textLoop, runMain, hl, he]
    | cons j js ih =>
      have hj : b.explain m j = .ok () := hok j (List.mem_cons_self _ _)
      have hjs : ∀ k ∈ js, b.explain m k = .ok () :=
        fun k hk => hok k (List.mem_cons_of_mem _ hk)
      simp [textLoop, runMain, hl, hj, ih hjs]

/-- C6 witness: the isolation theorem at the registered method `fasttext`. -/
theorem c6_witness :
    (driver okB ["t1", "t2"] ["fasttext", "flair"] =
      (textLoop okB "fasttext" (List.range (["t1", "t2"] : List String).length) ++
        (driver okB ["t1", "t2"] ["flair"]).1,
        (driver okB ["t1", "t2"] ["flair"]).2)) ∧
    (∀ e i is, okB.load "fasttext" = .error e →
      textLoop okB "fasttext" (i :: is) = [Event.printErr e]) ∧
    (∀ e i is₁ is₂, okB.load "fasttext" = .ok () →
      (∀ j ∈ is₁, okB.explain "fasttext" j = .ok ()) →
      okB.explain "fasttext" i = .error e →
      textLoop okB "fasttext" (is₁ ++ i :: is₂) =
        (is₁.map fun j => [Event.load "fasttext", Event.explain "fasttext" j,
          Event.save "fasttext" j]).flatten ++
          [Event.load "fasttext", Event.printErr e]) :=
  c6_method_failures_are_isolated okB ["t1", "t2"] ["flair"] "fasttext" (by decide)
theorem getD_map_lt {α β : Type _} (f : α → β) (l : List α) (dflt : β) (d : α) {i : ℕ}
    (hi : i < l.length) : (l.map f).getD i dflt = f (l.getD i d) := by
  rw [List.getD_eq_getElem _ _ (by simpa using hi), List.getElem_map,
    List.getD_eq_getElem _ _ hi]

theorem zip3_run (ls : List (List String)) (ps : List (List Score)) (ts : List String)
    (hlab : ls.length = ts.length) (hprob : ps.length = ts.length)
    (hpar : ∀ i, i < ts.length → (ls.getD i []).length ≤ (ps.getD i []).length) :
    ∃ res, adaptLoop ((ls.zip ps).zip ts) = some res ∧ res.length = ts.length ∧
      ∀ i, i < ts.length → res.getD i [] = adapted (ls.getD i []) (ps.getD i []) := by
  have hpar' : ∀ i (h1 : i < ls.length) (h2 : i < ps.length),
      ls[i].length ≤ ps[i].length := by
    intro i h1 h2
    have := hpar i (hlab ▸ h1)
    rwa [List.getD_eq_getElem ls [] h1, List.getD_eq_getElem ps [] h2] at this
  refine ⟨_, adaptLoop_zip3 hpar', ?_, ?_⟩
  · simp [List.length_zip, hlab, hprob]
  · intro i hi
    have h1 : i < ls.length := hlab ▸ hi
    have h2 : i < ps.length := hprob ▸ hi
    have hz : i < (((ls.zip ps).zip ts).map fun x => adapted x.1.1 x.1.2).length := by
      simp [List.length_zip, hlab, hprob, hi]
    rw [List.getD_eq_getElem _ [] hz, List.getElem_map]
    simp [List.getElem_zip, List.getElem?_eq_getElem h1, List.getElem?_eq_getElem h2]

/-- C7: on equivalent underlying per-text (label, score) outputs, the batch and
the sequential strategy produce identical outputs for the same texts: both run
the same normalization loop over the same raw predictions, and both fail alike
when that shared score table is ragged. -/
theorem c7_batch_and_sequential_strategies_agree
    (cf : BatchClassifier) (sf : String → List FlairLabel) (texts : List String)
    (hl : (cf.predict texts 5).1 = texts.map fun t => (sf t).map FlairLabel.value)
    (hp : (cf.predict texts 5).2 = texts.map fun t => (sf t).map FlairLabel.score) :
    fasttext_predictor cf texts = flair_predictor sf texts := by
  simp only [fasttext_predictor, flair_predictor, List.map_map, Function.comp_def, hl, hp]
  by_cases huni : uniformRows (texts.map fun t => (sf t).map FlairLabel.score)
  · rw [if_pos (Or.inr huni), if_pos huni]
  · have hcond : ¬ (((texts.map fun t => (sf t).map FlairLabel.value).zip
        (texts.map fun t => (sf t).map FlairLabel.score)).zip texts = [] ∨
        uniformRows (texts.map fun t => (sf t).map FlairLabel.score)) := by
      rintro (h | h)
      · apply huni
        have ht : texts = [] := by
          cases texts with
          | nil => rfl
          | cons t ts => simp at h
        rw [ht]
        simp [uniformRows, uniformRowsB]
      · exact huni h
    rw [if_neg hcond, if_neg huni]

/-- C7 witness: a batch classifier and a sequential classifier with the same
underlying outputs adapt one text identically. -/
theorem c7_witness :
    fasttext_predictor batchW ["x"] = flair_predictor flairW ["x"] :=
  c7_batch_and_sequential_strategies_agree batchW flairW ["x"] rfl rfl

theorem flair_run (sf : String → List FlairLabel) (texts : List String)
    (huni : uniformRows (texts.map fun t => (sf t).map FlairLabel.score)) :
    ∃ res, flair_predictor sf texts = some res ∧ res.length = texts.length ∧
      ∀ i, i < texts.length →
        res.getD i [] = adapted ((sf (texts.getD i "")).map FlairLabel.value)
          ((sf (texts.getD i "")).map FlairLabel.score) := by
  have hres := zip3_run (texts.map fun t => (sf t).map FlairLabel.value)
    (texts.map fun t => (sf t).map FlairLabel.score) texts
    (by simp) (by simp) ?_
  · rcases hres with ⟨res, hr, hlen, hget⟩
    refine ⟨res, by rw [flair_predictor_uniform_eq sf texts huni]; exact hr, hlen, ?_⟩
    intro i hi
    rw [hget i hi, getD_map_lt _ texts [] "" hi, getD_map_lt _ texts [] "" hi]
  · intro i hi
    rw [getD_map_lt _ texts [] "" hi, getD_map_lt _ texts [] "" hi]
    simp

/-- C9 counterexample: a sequential classifier yields one RawPrediction per
text, but with differing native label counts (text "a" gets 1 label, text "b"
gets 2): the `np.array(probs)` table is ragged, the program raises, and no
vector at all is returned — not one per input text. -/
theorem c9_counterexample :
    (raggedFlair "a").length = 1 ∧ (raggedFlair "b").length = 2 ∧
    flair_predictor raggedFlair ["a", "b"] = none := by
  refine ⟨by decide, by decide, ?_⟩
  rw [flair_predictor_ragged_eq raggedFlair ["a", "b"] (by decide)]

/-- C9 amended: when the classifier yields one RawPrediction per text (as many
label rows and score rows as texts, each row parallel) and the score table is
uniform — all texts carry the same number of native labels, as the `np.array`
conversions require — both predictor strategies return exactly one canonical
vector per input text, and the i-th output vector is the adapted i-th
RawPrediction (for the sequential strategy, the prediction of the i-th input
text). -/
theorem c9_one_vector_per_text_in_input_order
    (cf : BatchClassifier) (sf : String → List FlairLabel) (texts : List String)
    (hlab : (cf.predict texts 5).1.length = texts.length)
    (hprob : (cf.predict texts 5).2.length = texts.length)
    (hpar : ∀ i, i < texts.length →
      (((cf.predict texts 5).1.getD i []).length ≤
        ((cf.predict texts 5).2.getD i []).length))
    (huni : uniformRows (cf.predict texts 5).2)
    (huni' : uniformRows (texts.map fun t => (sf t).map FlairLabel.score)) :
    (∃ res, fasttext_predictor cf texts = some res ∧ res.length = texts.length ∧
      ∀ i, i < texts.length →
        res.getD i [] = adapted ((cf.predict texts 5).1.getD i [])
          ((cf.predict texts 5).2.getD i [])) ∧
    (∃ res, flair_predictor sf texts = some res ∧ res.length = texts.length ∧
      ∀ i, i < texts.length →
        res.getD i [] = adapted ((sf (texts.getD i "")).map FlairLabel.value)
          ((sf (texts.getD i "")).map FlairLabel.score)) := by
  constructor
  · rcases zip3_run _ _ _ hlab hprob hpar with ⟨res, hr, hlen, hget⟩
    exact ⟨res, by rw [fasttext_predictor_uniform_eq cf texts huni]; exact hr, hlen, hget⟩
  · exact flair_run sf texts huni'

/-- C9 witness: one text, one RawPrediction, one canonical vector, in order. -/
theorem c9_witness :
    (∃ res, fasttext_predictor batchW ["x"] = some res ∧
      res.length = (["x"] : List String).length ∧
      ∀ i, i < (["x"] : List String).length →
        res.getD i [] = adapted ((batchW.predict ["x"] 5).1.getD i [])
          ((batchW.predict ["x"] 5).2.getD i [])) ∧
    (∃ res, flair_predictor flairW ["x"] = some res ∧
      res.length = (["x"] : List String).length ∧
      ∀ i, i < (["x"] : List String).length →
        res.getD i [] = adapted ((flairW ((["x"] : List String).getD i "")).map
          FlairLabel.value) ((flairW ((["x"] : List String).getD i "")).map
          FlairLabel.score)) :=
  c9_one_vector_per_text_in_input_order batchW flairW ["x"] rfl rfl (by decide)
    (by decide) (by decide)

/-- C10 counterexample: a batch classifier returns 2 per-text predictions for
3 input texts — a count mismatch — but with differing label counts across the
two predictions: instead of silently truncating to 2 vectors, the ragged
probability table makes `prob[order]` raise, so nothing is returned. -/
theorem c10_counterexample :
    (raggedBatch.predict ["t1", "t2", "t3"] 5).1.length = 2 ∧
    (["t1", "t2", "t3"] : List String).length = 3 ∧
    fasttext_predictor raggedBatch ["t1", "t2", "t3"] = none := by
  decide

/-- C10 amended: (i) when the batch classifier returns a uniform probability
table (rows of equal length, as a real numeric `np.array` has) whose number of
per-text predictions differs from the number of input texts, the pairing loop
silently truncates to the shortest of the label rows, the score rows and the
texts, returning one vector per surviving position and no error — on a ragged
table the call raises instead; (ii) the sequential strategy builds exactly one
label row and one score row per text, so a prediction-count mismatch never
arises there, and whenever it returns at all it returns exactly one vector per
text. -/
theorem c10_count_mismatch_truncates_silently
    (cf : BatchClassifier) (texts : List String)
    (hpar : ∀ i, i < (cf.predict texts 5).1.length → i < (cf.predict texts 5).2.length →
      ((cf.predict texts 5).1.getD i []).length ≤ ((cf.predict texts 5).2.getD i []).length)
    (huni : uniformRows (cf.predict texts 5).2) :
    (∃ res, fasttext_predictor cf texts = some res ∧
      res.length =
        min (min (cf.predict texts 5).1.length (cf.predict texts 5).2.length)
          texts.length) ∧
    (∀ sf : String → List FlairLabel,
      (texts.map fun t => (sf t).map FlairLabel.value).length = texts.length ∧
      (texts.map fun t => (sf t).map FlairLabel.score).length = texts.length ∧
      ∀ res, flair_predictor sf texts = some res → res.length = texts.length) := by
  constructor
  · have hpar' : ∀ i (h1 : i < (cf.predict texts 5).1.length)
        (h2 : i < (cf.predict texts 5).2.length),
        (cf.predict texts 5).1[i].length ≤ (cf.predict texts 5).2[i].length := by
      intro i h1 h2
      have := hpar i h1 h2
      rwa [List.getD_eq_getElem _ [] h1, List.getD_eq_getElem _ [] h2] at this
    rw [fasttext_predictor_uniform_eq cf texts huni]
    refine ⟨_, adaptLoop_zip3 hpar', ?_⟩
    simp [List.length_zip]
  · intro sf
    refine ⟨by simp, by simp, ?_⟩
    intro res h
    by_cases huni' : uniformRows (texts.map fun t => (sf t).map FlairLabel.score)
    · rw [flair_predictor_uniform_eq sf texts huni'] at h
      rw [adaptLoop_length h]
      simp [List.length_zip]
    · rw [flair_predictor_ragged_eq sf texts huni'] at h
      cases h

/-- C10 witness: 3 uniform per-text predictions against 2 input texts truncate
to 2 output vectors with no error; the sequential facts at the same texts. -/
theorem c10_witness :
    (∃ res, fasttext_predictor mismatchBatch ["t1", "t2"] = some res ∧
      res.length =
        min (min (mismatchBatch.predict ["t1", "t2"] 5).1.length
          (mismatchBatch.predict ["t1", "t2"] 5).2.length)
          (["t1", "t2"] : List String).length) ∧
    (∀ sf : String → List FlairLabel,
      ((["t1", "t2"] : List String).map fun t => (sf t).map FlairLabel.value).length =
        (["t1", "t2"] : List String).length ∧
      ((["t1", "t2"] : List String).map fun t => (sf t).map FlairLabel.score).length =
        (["t1", "t2"] : List String).length ∧
      ∀ res, flair_predictor sf ["t1", "t2"] = some res →
        res.length = (["t1", "t2"] : List String).length) :=
  c10_count_mismatch_truncates_silently mismatchBatch ["t1", "t2"] (by decide) (by decide)
end Explainer
